import Mathlib

/-!
Verification of the domain rules of the bazaarku backend (Express + Supabase).

Each JavaScript helper or request handler relevant to the checked properties is
shallowly embedded as a pure Lean function.  Conventions used throughout:

* JavaScript timestamps (`Date.getTime()`) are modelled as `Int` milliseconds;
  an unparseable date (`NaN`) is modelled as `none : Option Int`.
* A JSON request field that may be absent is an `Option`; the JavaScript
  falsiness checks (`!x`) on strings and numbers are modelled explicitly
  (`none` or `some ""` / `some 0`).
* The external Supabase store is passed in as explicit data (the record a
  lookup returned, the list of dependent rows a query returned, a membership
  predicate for existence checks).  Store-level failures are out of scope.
* A handler's observable outcome is a small result structure carrying the HTTP
  status it responds with and the mutation it issued (if any).
-/

namespace Bazaarku

/-- JavaScript `String.prototype.trim()`: strip leading and trailing
whitespace.  (Defined structurally over the character list so that concrete
instances reduce inside the kernel; Lean's own `String.trim` is defined
through `Substring` functions that do not.) -/
def jsTrim (s : String) : String :=
  ⟨((s.data.dropWhile Char.isWhitespace).reverse.dropWhile
      Char.isWhitespace).reverse⟩

/-! ## event_controller.js: `validateDates` (lines 94-115)

```js
const validateDates = (start_date, end_date) => {
  const startDate = new Date(start_date);
  const endDate = new Date(end_date);
  const currentDate = new Date();
  if (isNaN(startDate.getTime()) || isNaN(endDate.getTime()))
    return { valid: false, message: "Invalid date format" };
  if (startDate < currentDate.setHours(0, 0, 0, 0))
    return { valid: false, message: "Start date cannot be in the past" };
  if (endDate < startDate)
    return { valid: false, message: "End date must be after start date" };
  return { valid: true };
};
```
`currentDate.setHours(0,0,0,0)` evaluates to the millisecond timestamp of the
current day's midnight; it is passed in as `todayStart`. -/

structure DateValidation where
  valid : Bool
  message : Option String
deriving Repr, DecidableEq

def validateDates (start_date end_date : Option Int) (todayStart : Int) :
    DateValidation :=
  match start_date, end_date with
  | some s, some e =>
      if s < todayStart then
        ⟨false, some "Start date cannot be in the past"⟩
      else if e < s then
        ⟨false, some "End date must be after start date"⟩
      else
        ⟨true, none⟩
  | _, _ => ⟨false, some "Invalid date format"⟩

/-! ## event_controller.js: event `status` derivation

The same ternary expression appears in `getAllEvents` (lines 652-658),
`getEventById` (lines 1070-1075) and `getEventsByVendor` (lines 1183-1188):

```js
status:
  new Date(event.end_date) < new Date()
    ? "completed"
    : new Date(event.start_date) <= new Date()
    ? "ongoing"
    : "upcoming",
```
`now` is the millisecond timestamp of `new Date()` (taken as one fixed value;
the claim pins the clock). -/

def eventStatus (now start_date end_date : Int) : String :=
  if end_date < now then "completed"
  else if start_date ≤ now then "ongoing"
  else "upcoming"

/-- The status derivation as the specification words it: "completed" if now >
end_date, else "ongoing" if now ≥ start_date, else "upcoming".  Kept as a
separate definition so the code-derived `eventStatus` can be compared with
it. -/
def specEventStatus (now start_date end_date : Int) : String :=
  if now > end_date then "completed"
  else if now ≥ start_date then "ongoing"
  else "upcoming"

/-! ## rental_products_controller.js (rating controller part):
`getEventRatingStats` (lines 677-759)

```js
if (!ratings || ratings.length === 0) {
  return res.json({ success: true, data: { event_id, total_ratings: 0,
    average_rating: 0, rating_distribution: { 1:0, 2:0, 3:0, 4:0, 5:0 } } });
}
const totalRatings = ratings.length;
const sum = ratings.reduce((acc, rating) => acc + rating.rating_star, 0);
const averageRating = (sum / totalRatings).toFixed(2);
const distribution = { 1: 0, 2: 0, 3: 0, 4: 0, 5: 0 };
ratings.forEach((rating) => { distribution[rating.rating_star]++; });
```
Ratings are modelled by their `rating_star` values (a `List Int` in query
order); arithmetic is exact (`Rat`), with `toFixed(2)` + `parseFloat`
modelled as rounding to the nearest multiple of 1/100 (ties up, as JS rounds
non-negative values).  `distribution[s]++` is only meaningful for s ∈ 1..5
(`createRating` enforces that bound on every stored rating); the model leaves
the five buckets unchanged for any other value. -/

structure RatingDistribution where
  one : Nat
  two : Nat
  three : Nat
  four : Nat
  five : Nat
deriving Repr, DecidableEq

def distIncr (d : RatingDistribution) (star : Int) : RatingDistribution :=
  if star = 1 then { d with one := d.one + 1 }
  else if star = 2 then { d with two := d.two + 1 }
  else if star = 3 then { d with three := d.three + 1 }
  else if star = 4 then { d with four := d.four + 1 }
  else if star = 5 then { d with five := d.five + 1 }
  else d

/-- `.toFixed(2)` then `parseFloat`: round to two decimal places. -/
def toFixed2 (q : Rat) : Rat := (round (q * 100) : Int) / 100

structure RatingStats where
  total_ratings : Nat
  average_rating : Rat
  rating_distribution : RatingDistribution
deriving Repr, DecidableEq

def getEventRatingStats (stars : List Int) : RatingStats :=
  if stars.length = 0 then
    ⟨0, 0, ⟨0, 0, 0, 0, 0⟩⟩
  else
    ⟨stars.length,
      toFixed2 ((stars.foldl (fun acc s => acc + s) 0 : Int) / (stars.length : Rat)),
      stars.foldl distIncr ⟨0, 0, 0, 0, 0⟩⟩

/-! ## banner_controller.js: `deleteArea` (lines 849-933) and
event_category_controller.js: `deleteEventCategory` (lines 346-430)

Both handlers share the same cascading-delete policy:

```js
const { force = false } = req.query;
// ... 404 if the entity does not exist ...
const { data: associatedEvents } = await supabase
  .from("event").select("id, name").eq("area_id", id).limit(5);
if (associatedEvents && associatedEvents.length > 0 && force !== "true") {
  return res.status(400).json({ success: false,
    message: "Cannot delete area with associated events",
    associated_events_count: associatedEvents.length,
    sample_events: associatedEvents, suggestion: "..." });
}
await supabase.from("area").delete().eq("id", id);
res.json({ success: true, ..., affected_events_count:
  associatedEvents ? associatedEvents.length : 0 });
```

`dependents` is the full list of event ids referencing the entity in the
store; the `.limit(5)` query returns `dependents.take 5`.  `force` is the raw
query-string value (`none` when absent; the JS default `false` is only ever
compared with `!== "true"`).  The id-validation branch and store-error
branches are elided (ids are taken as valid, store calls as succeeding). -/

structure CascadeDeleteResult where
  status : Nat
  message : String
  associated_events_count : Option Nat
  sample_events : Option (List Nat)
  affected_events_count : Option Nat
  deleted : Bool
deriving Repr, DecidableEq

def deleteArea (areaExists : Bool) (dependents : List Nat)
    (force : Option String) : CascadeDeleteResult :=
  if !areaExists then
    ⟨404, "Area not found", none, none, none, false⟩
  else
    let associatedEvents := dependents.take 5
    if associatedEvents.length > 0 && !(force == some "true") then
      ⟨400, "Cannot delete area with associated events",
        some associatedEvents.length, some associatedEvents, none, false⟩
    else
      ⟨200, "Area deleted successfully", none, none,
        some associatedEvents.length, true⟩

def deleteEventCategory (categoryExists : Bool) (dependents : List Nat)
    (force : Option String) : CascadeDeleteResult :=
  if !categoryExists then
    ⟨404, "Event category not found", none, none, none, false⟩
  else
    let associatedEvents := dependents.take 5
    if associatedEvents.length > 0 && !(force == some "true") then
      ⟨400, "Cannot delete category with associated events",
        some associatedEvents.length, some associatedEvents, none, false⟩
    else
      ⟨200, "Event category deleted successfully", none, none,
        some associatedEvents.length, true⟩

/-! ## event_controller.js: `deleteEvent` (lines 1523-1630) and
vendor_controller.js: `deleteVendor` (lines 861-949)

The same cascading-delete policy, for the other two parent entities:

```js
// deleteEvent: dependents are booth applications
const { data: associatedBooths } = await supabase
  .from("booth").select("id, name, is_acc").eq("event_id", id).limit(5);
if (associatedBooths && associatedBooths.length > 0 && force !== "true") {
  return res.status(400).json({ success: false,
    message: "Cannot delete event with associated booth applications",
    associated_booths_count: associatedBooths.length,
    sample_booths: associatedBooths, suggestion: "..." });
}
await supabase.from("event").delete().eq("id", id);
// ... best-effort deletion of banner/permit files from storage ...
res.json({ success: true, ..., affected_booths_count:
  associatedBooths ? associatedBooths.length : 0 });

// deleteVendor: dependents are events
const { data: associatedEvents } = await supabase
  .from("event").select("id, name").eq("vendor_id", id).limit(5);
if (associatedEvents && associatedEvents.length > 0 && force !== "true") {
  return res.status(400).json({ success: false,
    message: "Cannot delete vendor with associated events",
    associated_events_count: associatedEvents.length,
    sample_events: associatedEvents, suggestion: "..." });
}
await supabase.from("vendor").delete().eq("id", id);
res.json({ success: true, ..., affected_events_count:
  associatedEvents ? associatedEvents.length : 0 });
```

`deleteEvent` names its response fields after booths, so it gets its own
result structure; the best-effort storage cleanup after a successful event
delete and the store-error branches are elided as before (`deleteVendor` has
no id-validation branch; vendor ids are UUIDs). -/

structure CascadeDeleteBoothsResult where
  status : Nat
  message : String
  associated_booths_count : Option Nat
  sample_booths : Option (List Nat)
  affected_booths_count : Option Nat
  deleted : Bool
deriving Repr, DecidableEq

def deleteEvent (eventExists : Bool) (dependents : List Nat)
    (force : Option String) : CascadeDeleteBoothsResult :=
  if !eventExists then
    ⟨404, "Event not found", none, none, none, false⟩
  else
    let associatedBooths := dependents.take 5
    if associatedBooths.length > 0 && !(force == some "true") then
      ⟨400, "Cannot delete event with associated booth applications",
        some associatedBooths.length, some associatedBooths, none, false⟩
    else
      ⟨200, "Event deleted successfully", none, none,
        some associatedBooths.length, true⟩

def deleteVendor (vendorExists : Bool) (dependents : List Nat)
    (force : Option String) : CascadeDeleteResult :=
  if !vendorExists then
    ⟨404, "Vendor not found", none, none, none, false⟩
  else
    let associatedEvents := dependents.take 5
    if associatedEvents.length > 0 && !(force == some "true") then
      ⟨400, "Cannot delete vendor with associated events",
        some associatedEvents.length, some associatedEvents, none, false⟩
    else
      ⟨200, "Vendor deleted successfully", none, none,
        some associatedEvents.length, true⟩

/-! ## banner_controller.js: `bulkCreateAreas` (lines 936-999) and
event_category_controller.js: `bulkCreateEventCategories` (lines 433-496)

```js
if (!areas || !Array.isArray(areas) || areas.length === 0) {
  return res.status(400).json({ success: false,
    message: "Areas array is required" });
}
const validAreas = []; const errors = [];
for (let i = 0; i < areas.length; i++) {
  const area = areas[i];
  if (!area.name || area.name.trim() === "") {
    errors.push(`Area at index ${i}: name is required`);
  } else { validAreas.push({ name: area.name.trim() }); }
}
if (errors.length > 0) {
  return res.status(400).json({ success: false,
    message: "Validation errors", errors });
}
const { data } = await supabase.from("area").insert(validAreas).select();
res.status(201).json({ success: true,
  message: `${data.length} areas created successfully`, data });
```

An input item is a JSON object whose `name` field may be absent (`none`,
matching the `!area.name` falsiness check together with `some ""`).  The
insert is modelled as returning the inserted rows, so the reported count is
`validAreas.length`. -/

structure BulkItem where
  name : Option String
deriving Repr, DecidableEq

/-- `!area.name || area.name.trim() === ""` -/
def isInvalidItem (it : BulkItem) : Bool :=
  match it.name with
  | none => true
  | some s => s == "" || jsTrim s == ""

def trimmedName (it : BulkItem) : String :=
  match it.name with
  | none => ""
  | some s => jsTrim s

def areaItemError (i : Nat) : String :=
  "Area at index " ++ toString i ++ ": name is required"

def categoryItemError (i : Nat) : String :=
  "Category at index " ++ toString i ++ ": name is required"

/-- The validation loop: walks the items with their indices (starting at `i`),
accumulating trimmed names of valid items and one error per invalid index, in
order. -/
def bulkLoop (mkErr : Nat → String) : Nat → List BulkItem →
    List String × List String
  | _, [] => ([], [])
  | i, item :: rest =>
    let r := bulkLoop mkErr (i + 1) rest
    if isInvalidItem item then (r.1, mkErr i :: r.2)
    else (trimmedName item :: r.1, r.2)

structure BulkCreateResult where
  status : Nat
  message : String
  errors : List String
  inserted : List String
deriving Repr, DecidableEq

def bulkCreateAreas (areas : Option (List BulkItem)) : BulkCreateResult :=
  match areas with
  | none => ⟨400, "Areas array is required", [], []⟩
  | some items =>
    if items.length = 0 then ⟨400, "Areas array is required", [], []⟩
    else
      let r := bulkLoop areaItemError 0 items
      if r.2.length > 0 then ⟨400, "Validation errors", r.2, []⟩
      else
        ⟨201, toString r.1.length ++ " areas created successfully", [], r.1⟩

def bulkCreateEventCategories (categories : Option (List BulkItem)) :
    BulkCreateResult :=
  match categories with
  | none => ⟨400, "Categories array is required", [], []⟩
  | some items =>
    if items.length = 0 then ⟨400, "Categories array is required", [], []⟩
    else
      let r := bulkLoop categoryItemError 0 items
      if r.2.length > 0 then ⟨400, "Validation errors", r.2, []⟩
      else
        ⟨201, toString r.1.length ++ " event categories created successfully",
          [], r.1⟩

/-! ## rental_products_controller.js (rating controller part): `createRating`
(lines 389-465)

```js
const { name, review, event_id, rating_star } = req.body;
if (!name || !event_id || !rating_star) {
  return res.status(400).json({ success: false,
    message: "Name, event_id, and rating_star are required" });
}
if (rating_star < 1 || rating_star > 5) {
  return res.status(400).json({ success: false,
    message: "Rating star must be between 1 and 5" });
}
// ... 400 "Invalid event_id. Event not found" if the event lookup fails ...
const insertData = { name: name.trim(),
  review: review ? review.trim() : null,
  event_id: parseInt(event_id), rating_star: parseInt(rating_star) };
await supabase.from("rating").insert(insertData)...
```

`name`/`review` are strings (absent = `none`; `!x` is true for `none` and
`some ""`), `event_id`/`rating_star` integers (`!x` true for `none` and
`some 0`).  `eventFound` is the store's event-existence predicate. -/

structure RatingReq where
  name : Option String
  review : Option String
  event_id : Option Int
  rating_star : Option Int
deriving Repr, DecidableEq

/-- `review ? review.trim() : null` -/
def reviewField : Option String → Option String
  | none => none
  | some r => if r == "" then none else some (jsTrim r)

structure InsertedRating where
  name : String
  review : Option String
  event_id : Int
  rating_star : Int
deriving Repr, DecidableEq

structure CreateRatingResult where
  status : Nat
  message : String
  inserted : Option InsertedRating
deriving Repr, DecidableEq

def createRating (req : RatingReq) (eventFound : Int → Bool) :
    CreateRatingResult :=
  match req.name, req.event_id, req.rating_star with
  | some nm, some eid, some rs =>
    if nm == "" || eid == 0 || rs == 0 then
      ⟨400, "Name, event_id, and rating_star are required", none⟩
    else if rs < 1 || rs > 5 then
      ⟨400, "Rating star must be between 1 and 5", none⟩
    else if !(eventFound eid) then
      ⟨400, "Invalid event_id. Event not found", none⟩
    else
      ⟨201, "Rating created successfully",
        some ⟨jsTrim nm, reviewField req.review, eid, rs⟩⟩
  | _, _, _ => ⟨400, "Name, event_id, and rating_star are required", none⟩

/-! ## booth_controller.js: `validatePhone` (lines 7-13) and `updateBooth`
(lines 327-422)

```js
const validatePhone = (phone) => {
  if (!phone) return false;
  const phoneStr = phone.toString();
  return phoneStr.length >= 10 && phoneStr.length <= 15 &&
    /^\d+$/.test(phoneStr);
};
```

`updateBooth` (after the id-validation and not-found branches, which are
elided — `booth` is the record the lookup returned):

```js
if (existingBooth.is_acc !== "PENDING") {
  return res.status(400).json({ success: false,
    message: `Cannot update booth application with status:
              ${existingBooth.is_acc}`,
    current_status: existingBooth.is_acc });
}
const updateData = {};
if (name !== undefined) updateData.name = name.trim();
if (desc !== undefined) updateData.desc = desc.trim();
if (phone !== undefined) {
  if (!validatePhone(phone)) { return res.status(400).json({ ...
    message: "Invalid phone number format (10-15 digits)" }); }
  updateData.phone = parseInt(phone);
}
if (Object.keys(updateData).length === 0) {
  return res.status(400).json({ ...
    message: "At least one field is required to update" });
}
await supabase.from("booth").update(updateData)...
```
-/

structure Booth where
  is_acc : String
deriving Repr, DecidableEq

def validatePhone (phone : String) : Bool :=
  !(phone == "") && decide (10 ≤ phone.length) &&
    decide (phone.length ≤ 15) && phone.data.all Char.isDigit

/-- `parseInt` on an all-digit string: its decimal value. -/
def jsParseNatDigits (s : String) : Nat :=
  s.data.foldl (fun a c => a * 10 + (c.toNat - 48)) 0

structure BoothUpdateData where
  name : Option String
  desc : Option String
  phone : Option Nat
deriving Repr, DecidableEq

structure UpdateBoothResult where
  status : Nat
  message : String
  current_status : Option String
  updateOp : Option BoothUpdateData
deriving Repr, DecidableEq

/-- `Object.keys(updateData).length === 0` -/
def emptyUpdate (ud : BoothUpdateData) : Bool :=
  ud.name == none && ud.desc == none && ud.phone == none

def finishUpdate (ud : BoothUpdateData) : UpdateBoothResult :=
  if emptyUpdate ud then
    ⟨400, "At least one field is required to update", none, none⟩
  else
    ⟨200, "Booth application updated successfully", none, some ud⟩

structure BoothUpdateReq where
  name : Option String
  phone : Option String
  desc : Option String
deriving Repr, DecidableEq

def updateBooth (booth : Booth) (req : BoothUpdateReq) : UpdateBoothResult :=
  if !(booth.is_acc == "PENDING") then
    ⟨400, "Cannot update booth application with status: " ++ booth.is_acc,
      some booth.is_acc, none⟩
  else
    let base : BoothUpdateData :=
      ⟨req.name.map jsTrim, req.desc.map jsTrim, none⟩
    match req.phone with
    | some p =>
      if !validatePhone p then
        ⟨400, "Invalid phone number format (10-15 digits)", none, none⟩
      else
        finishUpdate { base with phone := some (jsParseNatDigits p) }
    | none => finishUpdate base

/-! ## booth_controller.js: `deleteBooth` (lines 505-561)

```js
const { data: existingBooth, error: fetchError } = await supabase
  .from("booth").select("*").eq("id", id).single();
if (fetchError || !existingB()) {          // <- `existingB` is undefined
  return res.status(404).json({ success: false, message: "Booth not found" });
}
await supabase.from("booth").delete().eq("id", id);
res.json({ success: true, ... });
```

`existingB` is an undefined identifier.  When the booth is missing,
`fetchError` is truthy and `||` short-circuits to the 404 branch; when the
booth exists, `fetchError` is null, the right operand `!existingB()` is
evaluated and throws a ReferenceError, which the surrounding try/catch turns
into a 500.  The guard is modelled as an `Except` computation whose error is
that thrown ReferenceError. -/

def deleteBoothGuard (booth? : Option Booth) : Except String Bool :=
  match booth? with
  | none => Except.ok true
  | some _ => Except.error "existingB is not defined"

structure DeleteBoothResult where
  status : Nat
  deleted : Bool
deriving Repr, DecidableEq

def deleteBooth (idValid : Bool) (booth? : Option Booth) :
    DeleteBoothResult :=
  if !idValid then ⟨400, false⟩
  else
    match deleteBoothGuard booth? with
    | Except.error _ => ⟨500, false⟩
    | Except.ok true => ⟨404, false⟩
    | Except.ok false => ⟨200, true⟩

/-! ## event_controller.js: `updateEvent` (lines 1217-1290)

```js
const { ..., remove_banner, remove_permit } = req.body;
const files = req.files;
if (remove_banner === "true") {
  updateData.banner = null;                       // line 1240
  if (existingEvent.banner) { ... }               // line 1242
}
if (remove_permit === "true") {
  updateData.permit_img = null;                   // line 1250
  if (existingEvent.permit_img) { ... }           // line 1252
}
// ... id validation ...
const { data: existingEvent, ... } = await supabase ...   // line 1268
const updateData = {};                                    // line 1290
```

`updateData` and `existingEvent` are `const`-declared only later (lines 1290
and 1268), so inside either `remove_*` block the first access hits the
temporal dead zone and throws a ReferenceError before any store call; the
try/catch answers 500 and the event row is untouched.  The rest of the
handler (reached only when neither flag is the string "true") is abstracted
as the `rest` argument. -/

structure UpdateEventReq where
  remove_banner : Option String
  remove_permit : Option String
deriving Repr, DecidableEq

structure UpdateEventResult where
  status : Nat
  eventChanged : Bool
deriving Repr, DecidableEq

def updateEvent (req : UpdateEventReq) (rest : UpdateEventResult) :
    UpdateEventResult :=
  if req.remove_banner == some "true" || req.remove_permit == some "true" then
    ⟨500, false⟩
  else rest

/-! ## vendor_controller.js: `validateInstagram` (lines 93-100) and the
Instagram normalization in `createVendor` (lines 226-231) / `updateVendor`
(lines 634-640)

```js
const validateInstagram = (insta) => {
  if (!insta) return false;
  const instagramRegex =
    /^(?:https?:\/\/)?(?:www\.)?instagram\.com\/([a-zA-Z0-9._]{1,30})\/?$|^@?([a-zA-Z0-9._]{1,30})$/;
  return instagramRegex.test(insta);
};
// ... applied only after validateInstagram(insta) has passed:
let formattedInsta = insta;
if (insta.includes("instagram.com/")) {
  formattedInsta = insta.split("instagram.com/")[1].replace("/", "");
} else if (insta.startsWith("@")) {
  formattedInsta = insta.substring(1);
}
```

Strings are modelled as `List Char`.  `split(sep)[1]` is the segment of the
string strictly between the end of the first occurrence of `sep` and the
start of the next (non-overlapping, scanned left to right), or the whole
remainder when `sep` occurs once; `firstOcc` returns the text before the
first occurrence and the remainder after it, `none` when there is no
occurrence (= `!includes`).  `.replace("/", "")` removes the first `/`
only. -/

/-- The regex character class `[a-zA-Z0-9._]`. -/
def isHandleChar (c : Char) : Bool :=
  c.isAlpha || c.isDigit || c == '.' || c == '_'

/-- The separator string `"instagram.com/"`. -/
def instaSep : List Char :=
  ['i', 'n', 's', 't', 'a', 'g', 'r', 'a', 'm', '.', 'c', 'o', 'm', '/']

/-- Split at the leftmost occurrence of `sep`: `some (pre, post)` with
`s = pre ++ sep ++ post`, or `none` when `sep` does not occur in `s`. -/
def firstOcc (sep : List Char) : List Char → Option (List Char × List Char)
  | [] => if sep.isPrefixOf ([] : List Char) then some ([], []) else none
  | c :: rest =>
    if sep.isPrefixOf (c :: rest) then some ([], (c :: rest).drop sep.length)
    else (firstOcc sep rest).map (fun pr => (c :: pr.1, pr.2))

/-- JavaScript `.replace("/", "")`: remove the first slash, if any. -/
def removeFirstSlash : List Char → List Char
  | [] => []
  | c :: rest => if c = '/' then rest else c :: removeFirstSlash rest

/-- JavaScript `insta.startsWith("@") ? insta.substring(1) : insta`. -/
def stripAt : List Char → List Char
  | [] => []
  | c :: rest => if c = '@' then rest else c :: rest

/-- The Instagram normalization applied before storing `insta`. -/
def formatInsta (s : List Char) : List Char :=
  match firstOcc instaSep s with
  | some (_, post) =>
    match firstOcc instaSep post with
    | some (mid, _) => removeFirstSlash mid
    | none => removeFirstSlash post
  | none => stripAt s

/-- A bare handle: 1-30 characters of the handle class. -/
def isHandle (s : List Char) : Bool :=
  decide (1 ≤ s.length) && decide (s.length ≤ 30) && s.all isHandleChar

/-- The part after `instagram.com/` in the URL alternative: a handle with an
optional trailing slash (`([a-zA-Z0-9._]{1,30})\/?$`). -/
def handleOptSlash (r : List Char) : Bool :=
  isHandle r ||
  (match r.reverse with
   | c :: t => c == '/' && isHandle t.reverse
   | [] => false)

/-- The optional `(?:https?:\/\/)?(?:www\.)?` prefixes, enumerated. -/
def urlPrefixes : List (List Char) :=
  [[],
   ['h', 't', 't', 'p', ':', '/', '/'],
   ['h', 't', 't', 'p', 's', ':', '/', '/'],
   ['w', 'w', 'w', '.'],
   ['h', 't', 't', 'p', ':', '/', '/', 'w', 'w', 'w', '.'],
   ['h', 't', 't', 'p', 's', ':', '/', '/', 'w', 'w', 'w', '.']]

/-- The URL alternative of the regex. -/
def urlAlt (s : List Char) : Bool :=
  urlPrefixes.any fun p =>
    (p ++ instaSep).isPrefixOf s &&
      handleOptSlash (s.drop (p ++ instaSep).length)

/-- The `^@...$` form of the second alternative (`^@?([a-zA-Z0-9._]{1,30})$`
with the `@` present). -/
def atAlt (s : List Char) : Bool :=
  match s with
  | c :: rest => c == '@' && isHandle rest
  | [] => false

def validateInstagram (s : List Char) : Bool :=
  urlAlt s || atAlt s || isHandle s

def instaInputUrl : String := "https://instagram.com/foo.bar/"

def instaInputAt : String := "@foo.bar"

def instaInputBare : String := "foo.bar"

end Bazaarku

namespace Bazaarku

lemma distIncr_foldl_spec (stars : List Int) (d : RatingDistribution) :
    stars.foldl distIncr d =
      ⟨d.one + stars.count 1, d.two + stars.count 2, d.three + stars.count 3,
        d.four + stars.count 4, d.five + stars.count 5⟩ := by
  induction stars generalizing d with
  | nil => simp
  | cons a rest ih =>
    rw [List.foldl_cons, ih]
    by_cases h1 : a = 1
    · subst h1
      simp [distIncr, List.count_cons, RatingDistribution.mk.injEq]
      omega
    by_cases h2 : a = 2
    · subst h2
      simp [distIncr, List.count_cons, RatingDistribution.mk.injEq]
      omega
    by_cases h3 : a = 3
    · subst h3
      simp [distIncr, List.count_cons, RatingDistribution.mk.injEq]
      omega
    by_cases h4 : a = 4
    · subst h4
      simp [distIncr, List.count_cons, RatingDistribution.mk.injEq]
      omega
    by_cases h5 : a = 5
    · subst h5
      simp [distIncr, List.count_cons, RatingDistribution.mk.injEq]
      omega
    simp [distIncr, h1, h2, h3, h4, h5, List.count_cons,
      RatingDistribution.mk.injEq, Ne.symm h1, Ne.symm h2, Ne.symm h3,
      Ne.symm h4, Ne.symm h5]

lemma foldl_add_eq_sum (stars : List Int) (a : Int) :
    stars.foldl (fun acc s => acc + s) a = a + stars.sum := by
  induction stars generalizing a with
  | nil => simp
  | cons x rest ih => simp [List.foldl_cons, ih, add_assoc]

/-- C3: for every event and every finite multiset of its ratings (all stored
stars lie in 1..5, as `createRating` enforces), `getEventRatingStats` returns
`total_ratings` equal to the count, `average_rating` equal to the sum divided
by the count rounded to 2 decimals (and 0 when there are no ratings), and
`rating_distribution` mapping each of 1..5 to the count of ratings with that
star value, zero for absent buckets. -/
theorem getEventRatingStats_spec (stars : List Int)
    (h : ∀ s ∈ stars, 1 ≤ s ∧ s ≤ 5) :
    (getEventRatingStats stars).total_ratings = stars.length ∧
    (stars = [] → (getEventRatingStats stars).average_rating = 0) ∧
    (stars ≠ [] →
      (getEventRatingStats stars).average_rating =
        toFixed2 ((stars.sum : Rat) / (stars.length : Rat))) ∧
    (getEventRatingStats stars).rating_distribution =
      ⟨stars.count 1, stars.count 2, stars.count 3, stars.count 4,
        stars.count 5⟩ := by
  refine ⟨?_, ?_, ?_, ?_⟩
  · by_cases hs : stars.length = 0
    · simp only [getEventRatingStats, hs, if_true]
      try omega
    · simp [getEventRatingStats, hs]
  · intro he
    subst he
    simp [getEventRatingStats]
  · intro hne
    have hl : stars.length ≠ 0 := by simpa using hne
    simp [getEventRatingStats, hl, foldl_add_eq_sum]
  · by_cases hs : stars.length = 0
    · have he : stars = [] := List.length_eq_zero.mp hs
      subst he
      simp [getEventRatingStats]
    · simp [getEventRatingStats, hs, distIncr_foldl_spec]

/-- Witness for C3: the ratings [5,4,5,3] yield total 4, average 4.25 and
distribution (1:0, 2:0, 3:1, 4:1, 5:2). -/
theorem getEventRatingStats_spec_witness :
    (getEventRatingStats [5, 4, 5, 3]).total_ratings = 4 ∧
    (getEventRatingStats [5, 4, 5, 3]).average_rating = 17 / 4 ∧
    (getEventRatingStats [5, 4, 5, 3]).rating_distribution =
      ⟨0, 0, 1, 1, 2⟩ := by
  have ht := (getEventRatingStats_spec [5, 4, 5, 3] (by decide)).1
  refine ⟨by simpa using ht, ?_, by decide⟩
  have ha := (getEventRatingStats_spec [5, 4, 5, 3] (by decide)).2.2.1
    (by decide)
  rw [ha]
  norm_num [toFixed2, round_eq]

/-- C4 counterexample: an existing area referenced by 6 events, deleted with
`force` unset, is refused — but the 400 response reports
`associated_events_count = 5` (the `.limit(5)` lookup), not the dependent
count 6, refuting the claim that the response carries the dependent count. -/
theorem deleteArea_count_counterexample :
    (deleteArea true [1, 2, 3, 4, 5, 6] none).status = 400 ∧
    (deleteArea true [1, 2, 3, 4, 5, 6] none).deleted = false ∧
    ([1, 2, 3, 4, 5, 6] : List Nat).length = 6 ∧
    (deleteArea true [1, 2, 3, 4, 5, 6] none).associated_events_count ≠
      some 6 ∧
    (deleteArea true [1, 2, 3, 4, 5, 6] none).associated_events_count =
      some 5 := by
  decide

/-- C4 (amended): for every parent-entity delete request (area, event
category, event, vendor) on an existing entity: when at least one dependent
references the entity and the force flag is not the string "true", the
delete is refused with a 400 response carrying the count of the up-to-5
retrieved dependents (`min 5 count`) and a sample of at most 5 dependents,
and the entity is not deleted; when force is "true" or no dependents exist,
the delete is performed and the response reports the retrieved-dependent
count (`min 5 count`) as the number affected. -/
theorem cascadeDelete_spec (deps : List Nat) (force : Option String) :
    (deps ≠ [] → force ≠ some "true" →
      (deleteArea true deps force).status = 400 ∧
      (deleteArea true deps force).associated_events_count =
        some (min 5 deps.length) ∧
      (deleteArea true deps force).sample_events = some (deps.take 5) ∧
      (deps.take 5).length ≤ 5 ∧
      (deleteArea true deps force).deleted = false ∧
      (deleteEventCategory true deps force).status = 400 ∧
      (deleteEventCategory true deps force).associated_events_count =
        some (min 5 deps.length) ∧
      (deleteEventCategory true deps force).sample_events =
        some (deps.take 5) ∧
      (deleteEventCategory true deps force).deleted = false ∧
      (deleteEvent true deps force).status = 400 ∧
      (deleteEvent true deps force).associated_booths_count =
        some (min 5 deps.length) ∧
      (deleteEvent true deps force).sample_booths = some (deps.take 5) ∧
      (deleteEvent true deps force).deleted = false ∧
      (deleteVendor true deps force).status = 400 ∧
      (deleteVendor true deps force).associated_events_count =
        some (min 5 deps.length) ∧
      (deleteVendor true deps force).sample_events = some (deps.take 5) ∧
      (deleteVendor true deps force).deleted = false) ∧
    (force = some "true" ∨ deps = [] →
      (deleteArea true deps force).status = 200 ∧
      (deleteArea true deps force).deleted = true ∧
      (deleteArea true deps force).affected_events_count =
        some (min 5 deps.length) ∧
      (deleteEventCategory true deps force).status = 200 ∧
      (deleteEventCategory true deps force).deleted = true ∧
      (deleteEventCategory true deps force).affected_events_count =
        some (min 5 deps.length) ∧
      (deleteEvent true deps force).status = 200 ∧
      (deleteEvent true deps force).deleted = true ∧
      (deleteEvent true deps force).affected_booths_count =
        some (min 5 deps.length) ∧
      (deleteVendor true deps force).status = 200 ∧
      (deleteVendor true deps force).deleted = true ∧
      (deleteVendor true deps force).affected_events_count =
        some (min 5 deps.length)) := by
  constructor
  · intro hne hf
    have hpos : 0 < (deps.take 5).length := by
      rw [List.length_take]
      have := List.length_pos.mpr hne
      omega
    have hb : (force == some "true") = false := by
      simpa using hf
    have hd : 0 < deps.length := List.length_pos.mpr hne
    simp [deleteArea, deleteEventCategory, deleteEvent, deleteVendor,
      hpos, hb, List.length_take, hd]
  · intro h
    rcases h with h | h
    · subst h
      simp [deleteArea, deleteEventCategory, deleteEvent, deleteVendor,
        List.length_take]
    · subst h
      simp [deleteArea, deleteEventCategory, deleteEvent, deleteVendor]

/-- Witness for C4 (amended): a parent with 3 dependents and `force` unset
is refused with count 3 for all four entity kinds; with `force = "true"` the
delete proceeds with 3 reported affected. -/
theorem cascadeDelete_spec_witness :
    ((deleteArea true [7, 8, 9] none).status = 400 ∧
      (deleteArea true [7, 8, 9] none).associated_events_count = some 3 ∧
      (deleteArea true [7, 8, 9] none).deleted = false ∧
      (deleteEventCategory true [7, 8, 9] none).status = 400 ∧
      (deleteEvent true [7, 8, 9] none).status = 400 ∧
      (deleteVendor true [7, 8, 9] none).status = 400) ∧
    ((deleteArea true [7, 8, 9] (some "true")).status = 200 ∧
      (deleteArea true [7, 8, 9] (some "true")).deleted = true ∧
      (deleteArea true [7, 8, 9] (some "true")).affected_events_count =
        some 3 ∧
      (deleteEventCategory true [7, 8, 9] (some "true")).deleted = true ∧
      (deleteEvent true [7, 8, 9] (some "true")).deleted = true ∧
      (deleteVendor true [7, 8, 9] (some "true")).deleted = true) := by
  have h1 := (cascadeDelete_spec [7, 8, 9] none).1 (by decide) (by decide)
  have h2 := (cascadeDelete_spec [7, 8, 9] (some "true")).2 (Or.inl rfl)
  obtain ⟨a1, a2, a3, a4, a5, c1, c2, c3, c4, e1, e2, e3, e4,
    v1, v2, v3, v4⟩ := h1
  obtain ⟨b1, b2, b3, d1, d2, d3, f1, f2, f3, g1, g2, g3⟩ := h2
  exact ⟨⟨a1, a2, a5, c1, e1, v1⟩, ⟨b1, b2, b3, d2, f2, g2⟩⟩

lemma enumFrom_countP (items : List BulkItem) :
    ∀ i, ((List.enumFrom i items).filter
      (fun p => isInvalidItem p.2)).length =
      items.countP (fun it => isInvalidItem it) := by
  have key : ∀ (l : List BulkItem) (i : Nat),
      (List.enumFrom i l).countP (fun p => isInvalidItem p.2) =
        l.countP (fun it => isInvalidItem it) := by
    intro l
    induction l with
    | nil => intro i; simp
    | cons it rest ih =>
      intro i
      simp [List.enumFrom, List.countP_cons, ih (i + 1)]
  intro i
  rw [← List.countP_eq_length_filter]
  exact key items i

lemma bulkLoop_spec (mkErr : Nat → String) (items : List BulkItem) :
    ∀ i, bulkLoop mkErr i items =
      ((items.filter (fun it => !isInvalidItem it)).map trimmedName,
        ((List.enumFrom i items).filter (fun p => isInvalidItem p.2)).map
          (fun p => mkErr p.1)) := by
  induction items with
  | nil => intro i; simp [bulkLoop]
  | cons it rest ih =>
    intro i
    by_cases hv : isInvalidItem it
    · simp [bulkLoop, hv, ih (i + 1), List.enumFrom, List.filter]
    · simp [bulkLoop, hv, ih (i + 1), List.enumFrom, List.filter]

/-- C5: for every non-empty bulk-create request (areas or event categories):
if any item has a missing or blank name, the entire batch is rejected with a
400 response listing exactly one error message per invalid index and no item
is inserted; if all items are valid, all are inserted (their trimmed names,
in order) and the response message reports the created count. -/
theorem bulkCreate_spec (items : List BulkItem) (hne : items ≠ []) :
    ((∃ it ∈ items, isInvalidItem it = true) →
      (bulkCreateAreas (some items)).status = 400 ∧
      (bulkCreateAreas (some items)).inserted = [] ∧
      (bulkCreateAreas (some items)).errors =
        ((List.enumFrom 0 items).filter (fun p => isInvalidItem p.2)).map
          (fun p => areaItemError p.1) ∧
      (bulkCreateAreas (some items)).errors.length =
        items.countP (fun it => isInvalidItem it) ∧
      (bulkCreateEventCategories (some items)).status = 400 ∧
      (bulkCreateEventCategories (some items)).inserted = [] ∧
      (bulkCreateEventCategories (some items)).errors =
        ((List.enumFrom 0 items).filter (fun p => isInvalidItem p.2)).map
          (fun p => categoryItemError p.1) ∧
      (bulkCreateEventCategories (some items)).errors.length =
        items.countP (fun it => isInvalidItem it)) ∧
    ((∀ it ∈ items, isInvalidItem it = false) →
      (bulkCreateAreas (some items)).status = 201 ∧
      (bulkCreateAreas (some items)).inserted = items.map trimmedName ∧
      (bulkCreateAreas (some items)).inserted.length = items.length ∧
      (bulkCreateAreas (some items)).message =
        toString items.length ++ " areas created successfully" ∧
      (bulkCreateEventCategories (some items)).status = 201 ∧
      (bulkCreateEventCategories (some items)).inserted =
        items.map trimmedName ∧
      (bulkCreateEventCategories (some items)).inserted.length =
        items.length) := by
  have hlen : ¬ items.length = 0 := fun h => hne (List.length_eq_zero.mp h)
  have hcount := enumFrom_countP items
  constructor
  · intro hex
    have hpos : 0 < items.countP (fun it => isInvalidItem it) :=
      List.countP_pos_iff.mpr hex
    have herr : 0 < ((List.enumFrom 0 items).filter
        (fun p => isInvalidItem p.2)).length := by
      rw [hcount 0]; exact hpos
    simp only [bulkCreateAreas, bulkCreateEventCategories, hlen, if_false,
      bulkLoop_spec, List.length_map]
    simp [hex, hcount 0, List.length_map]
  · intro hall
    have hfil : items.filter (fun it => !isInvalidItem it) = items :=
      List.filter_eq_self.mpr (by
        intro a ha
        simp [hall a ha])
    have herr0 : ((List.enumFrom 0 items).filter
        (fun p => isInvalidItem p.2)) = [] := by
      rw [List.filter_eq_nil_iff]
      intro p hp
      have : p.2 ∈ items := by
        have := List.enumFrom_map_snd 0 items
        have hmem : p.2 ∈ (List.enumFrom 0 items).map Prod.snd :=
          List.mem_map_of_mem Prod.snd hp
        rwa [this] at hmem
      simp [hall p.2 this]
    simp only [bulkCreateAreas, bulkCreateEventCategories, hlen, if_false,
      bulkLoop_spec, herr0, hfil]
    simp [List.length_map]

/-- Witness for C5: the batch [{name:"A"},{name:""}] is rejected with one
error naming index 1 and inserts nothing; the batch [{name:"A"},{name:"B"}]
creates both with count 2. -/
theorem bulkCreate_spec_witness :
    ((bulkCreateAreas (some [⟨some "A"⟩, ⟨some ""⟩])).status = 400 ∧
      (bulkCreateAreas (some [⟨some "A"⟩, ⟨some ""⟩])).errors =
        ["Area at index 1: name is required"] ∧
      (bulkCreateAreas (some [⟨some "A"⟩, ⟨some ""⟩])).inserted = []) ∧
    ((bulkCreateAreas (some [⟨some "A"⟩, ⟨some "B"⟩])).status = 201 ∧
      (bulkCreateAreas (some [⟨some "A"⟩, ⟨some "B"⟩])).inserted =
        ["A", "B"] ∧
      (bulkCreateAreas (some [⟨some "A"⟩, ⟨some "B"⟩])).message =
        "2 areas created successfully") := by
  have h1 := (bulkCreate_spec [⟨some "A"⟩, ⟨some ""⟩] (by simp)).1
    ⟨⟨some ""⟩, by simp, by decide⟩
  have h2 := (bulkCreate_spec [⟨some "A"⟩, ⟨some "B"⟩] (by simp)).2
    (by decide)
  refine ⟨⟨h1.1, ?_, h1.2.1⟩, ⟨h2.1, ?_, ?_⟩⟩
  · rw [h1.2.2.1]
    decide
  · rw [h2.2.1]
    decide
  · rw [h2.2.2.2.1]
    decide

lemma bor_elim {a b : Bool} (h : (a || b) = true) :
    a = true ∨ b = true := by
  cases a <;> cases b <;> simp_all

lemma band_elim {a b : Bool} (h : (a && b) = true) :
    a = true ∧ b = true := by
  cases a <;> cases b <;> simp_all

lemma isPrefixOf_append_self (p t : List Char) :
    p.isPrefixOf (p ++ t) = true := by
  induction p with
  | nil => simp [List.isPrefixOf]
  | cons a p' ih => simp [List.isPrefixOf, ih]

lemma eq_append_drop_of_isPrefixOf (p : List Char) :
    ∀ s : List Char, p.isPrefixOf s = true → s = p ++ s.drop p.length := by
  induction p with
  | nil => intro s _; simp
  | cons a p' ih =>
    intro s h
    cases s with
    | nil => simp [List.isPrefixOf] at h
    | cons b s' =>
      simp only [List.isPrefixOf, Bool.and_eq_true, beq_iff_eq] at h
      obtain ⟨rfl, h2⟩ := h
      simp only [List.length_cons, List.drop_succ_cons, List.cons_append,
        List.cons.injEq, true_and]
      exact ih s' h2

lemma isPrefixOf_nil_eq (sep : List Char)
    (h : sep.isPrefixOf ([] : List Char) = true) : sep = [] := by
  cases sep with
  | nil => rfl
  | cons a t => simp [List.isPrefixOf] at h

lemma firstOcc_sound (sep : List Char) :
    ∀ s pre post : List Char, firstOcc sep s = some (pre, post) →
      s = pre ++ sep ++ post := by
  intro s
  induction s with
  | nil =>
    intro pre post h
    unfold firstOcc at h
    split at h
    case isTrue hpre =>
      simp only [Option.some.injEq, Prod.mk.injEq] at h
      obtain ⟨rfl, rfl⟩ := h
      simp [isPrefixOf_nil_eq sep hpre]
    case isFalse => cases h
  | cons c rest ih =>
    intro pre post h
    unfold firstOcc at h
    split at h
    case isTrue hpre =>
      simp only [Option.some.injEq, Prod.mk.injEq] at h
      obtain ⟨rfl, rfl⟩ := h
      simpa using eq_append_drop_of_isPrefixOf sep (c :: rest) hpre
    case isFalse hnpre =>
      cases hfo : firstOcc sep rest with
      | none => rw [hfo] at h; cases h
      | some pr =>
        obtain ⟨p1, p2⟩ := pr
        rw [hfo] at h
        simp only [Option.map_some', Option.some.injEq, Prod.mk.injEq] at h
        obtain ⟨rfl, rfl⟩ := h
        have hr := ih p1 p2 hfo
        simp [hr]

lemma mem_of_firstOcc_some (sep s pre post : List Char)
    (h : firstOcc sep s = some (pre, post)) : ∀ c ∈ sep, c ∈ s := by
  intro c hc
  rw [firstOcc_sound sep s pre post h]
  simp [hc]

lemma firstOcc_none_of_no_slash (s : List Char) (h : '/' ∉ s) :
    firstOcc instaSep s = none := by
  cases hfo : firstOcc instaSep s with
  | none => rfl
  | some pr =>
    exact absurd
      (mem_of_firstOcc_some instaSep s pr.1 pr.2 (by rw [hfo]) '/' (by decide))
      h

lemma removeFirstSlash_of_no_slash (s : List Char) (h : '/' ∉ s) :
    removeFirstSlash s = s := by
  induction s with
  | nil => rfl
  | cons c rest ih =>
    have hc : ¬ c = '/' := fun e => h (by simp [e])
    have hr : '/' ∉ rest := fun hm => h (List.mem_cons_of_mem _ hm)
    simp [removeFirstSlash, hc, ih hr]

lemma removeFirstSlash_append_slash (s : List Char) (h : '/' ∉ s) :
    removeFirstSlash (s ++ ['/']) = s := by
  induction s with
  | nil => rfl
  | cons c rest ih =>
    have hc : ¬ c = '/' := fun e => h (by simp [e])
    have hr : '/' ∉ rest := fun hm => h (List.mem_cons_of_mem _ hm)
    simp [removeFirstSlash, hc, ih hr]

lemma no_slash_of_allHandle (s : List Char) (h : s.all isHandleChar = true) :
    '/' ∉ s := by
  intro hc
  exact absurd (List.all_eq_true.mp h '/' hc) (by decide)

lemma firstOcc_of_isPrefixOf (sep s : List Char) (hsep : sep ≠ [])
    (h : sep.isPrefixOf s = true) :
    firstOcc sep s = some ([], s.drop sep.length) := by
  cases s with
  | nil =>
    exact absurd (isPrefixOf_nil_eq sep h) hsep
  | cons c rest => simp [firstOcc, h]

lemma firstOcc_instaSep_append (p r : List Char) (hp : 'i' ∉ p) :
    firstOcc instaSep (p ++ (instaSep ++ r)) = some (p, r) := by
  induction p with
  | nil =>
    rw [List.nil_append,
      firstOcc_of_isPrefixOf instaSep (instaSep ++ r) (by decide)
        (isPrefixOf_append_self instaSep r)]
    rw [List.drop_left]
  | cons c p' ih =>
    have hc : ¬ c = 'i' := fun e => hp (by simp [e])
    have hp' : 'i' ∉ p' := fun hm => hp (List.mem_cons_of_mem _ hm)
    have hnp : ¬ instaSep.isPrefixOf
        (c :: (p' ++ (instaSep ++ r))) = true := by
      intro habs
      simp only [instaSep, List.isPrefixOf, Bool.and_eq_true,
        beq_iff_eq] at habs
      exact hc habs.1.symm
    rw [List.cons_append]
    unfold firstOcc
    rw [if_neg hnp, ih hp']
    rfl

lemma formatInsta_eq_some_none (s pre post : List Char)
    (h1 : firstOcc instaSep s = some (pre, post))
    (h2 : firstOcc instaSep post = none) :
    formatInsta s = removeFirstSlash post := by
  unfold formatInsta
  rw [h1]
  show (match firstOcc instaSep post with
    | some (mid, _) => removeFirstSlash mid
    | none => removeFirstSlash post) = removeFirstSlash post
  rw [h2]

lemma formatInsta_eq_some_some (s pre post mid post2 : List Char)
    (h1 : firstOcc instaSep s = some (pre, post))
    (h2 : firstOcc instaSep post = some (mid, post2)) :
    formatInsta s = removeFirstSlash mid := by
  unfold formatInsta
  rw [h1]
  show (match firstOcc instaSep post with
    | some (mid, _) => removeFirstSlash mid
    | none => removeFirstSlash post) = removeFirstSlash mid
  rw [h2]

lemma formatInsta_eq_none (s : List Char)
    (h : firstOcc instaSep s = none) :
    formatInsta s = stripAt s := by
  unfold formatInsta
  rw [h]

lemma allHandle_formatInsta (s : List Char)
    (h : validateInstagram s = true) :
    (formatInsta s).all isHandleChar = true := by
  unfold validateInstagram at h
  rcases bor_elim h with h2 | hbare
  rcases bor_elim h2 with hurl | hat
  · -- URL alternative
    unfold urlAlt at hurl
    rw [List.any_eq_true] at hurl
    obtain ⟨p, hpmem, hp⟩ := hurl
    obtain ⟨hpre, hopt⟩ := band_elim hp
    have hsdecomp : s = (p ++ instaSep) ++ s.drop (p ++ instaSep).length :=
      eq_append_drop_of_isPrefixOf _ s hpre
    have hpi : 'i' ∉ p := by
      have hall : ∀ q ∈ urlPrefixes, 'i' ∉ q := by decide
      exact hall p hpmem
    have hfo : firstOcc instaSep s =
        some (p, s.drop (p ++ instaSep).length) := by
      conv_lhs => rw [hsdecomp, List.append_assoc]
      exact firstOcc_instaSep_append p _ hpi
    generalize hrdef : s.drop (p ++ instaSep).length = r at hopt hfo
    unfold handleOptSlash at hopt
    rcases bor_elim hopt with hh | htrail
    · have hall : r.all isHandleChar = true := by
        simp only [isHandle, Bool.and_eq_true] at hh
        exact hh.2
      have hns : '/' ∉ r := no_slash_of_allHandle r hall
      rw [formatInsta_eq_some_none s p r hfo
        (firstOcc_none_of_no_slash r hns),
        removeFirstSlash_of_no_slash r hns]
      exact hall
    · rcases hrev : r.reverse with _ | ⟨c, t⟩
      · rw [hrev] at htrail; cases htrail
      · rw [hrev] at htrail
        obtain ⟨hceq, hth⟩ := band_elim htrail
        have hceq' : c = '/' := by simpa using hceq
        subst hceq'
        have hhd : r = t.reverse ++ ['/'] := by
          rw [← List.reverse_reverse r, hrev]
          simp
        have hallh : (t.reverse).all isHandleChar = true := by
          simp only [isHandle, Bool.and_eq_true] at hth
          exact hth.2
        have hnsh : '/' ∉ t.reverse := no_slash_of_allHandle _ hallh
        cases hfo2 : firstOcc instaSep r with
        | none =>
          rw [formatInsta_eq_some_none s p r hfo hfo2, hhd,
            removeFirstSlash_append_slash _ hnsh]
          exact hallh
        | some pr =>
          obtain ⟨mid, post⟩ := pr
          have hdec := firstOcc_sound instaSep r mid post hfo2
          have h1 := congrArg List.length hdec
          have h2 := congrArg List.length hhd
          have h3 : instaSep.length = 14 := rfl
          simp only [List.length_append, List.length_cons,
            List.length_nil] at h1 h2
          have hlen : mid.length ≤ (t.reverse).length := by omega
          have htake : r.take mid.length = mid := by
            rw [hdec, List.append_assoc]
            exact List.take_left mid _
          have hmid : mid = (t.reverse).take mid.length := by
            conv_lhs => rw [← htake]
            rw [hhd, List.take_append_eq_append_take,
              Nat.sub_eq_zero_of_le hlen]
            simp
          have hallmid : mid.all isHandleChar = true := by
            rw [hmid, List.all_eq_true]
            intro x hx
            exact List.all_eq_true.mp hallh x (List.take_subset _ _ hx)
          rw [formatInsta_eq_some_some s p r mid post hfo hfo2,
            removeFirstSlash_of_no_slash mid
              (no_slash_of_allHandle mid hallmid)]
          exact hallmid
  · -- "@handle" alternative
    cases s with
    | nil => cases hat
    | cons c rest =>
      unfold atAlt at hat
      obtain ⟨hceq, hh⟩ := band_elim hat
      have hceq' : c = '@' := by simpa using hceq
      subst hceq'
      have hall : rest.all isHandleChar = true := by
        simp only [isHandle, Bool.and_eq_true] at hh
        exact hh.2
      have hns : '/' ∉ '@' :: rest := by
        intro hm
        rcases List.mem_cons.mp hm with he | hm2
        · cases he
        · exact no_slash_of_allHandle rest hall hm2
      rw [formatInsta_eq_none _ (firstOcc_none_of_no_slash _ hns)]
      simpa [stripAt] using hall
  · -- bare-handle alternative
    cases s with
    | nil => simp [isHandle] at hbare
    | cons c rest =>
      have hall : (c :: rest).all isHandleChar = true := by
        simp only [isHandle, Bool.and_eq_true] at hbare
        exact hbare.2
      have hns : '/' ∉ c :: rest := no_slash_of_allHandle _ hall
      have hc : isHandleChar c = true :=
        List.all_eq_true.mp hall c (by simp)
      have hca : ¬ c = '@' := by
        intro e
        rw [e] at hc
        exact absurd hc (by decide)
      rw [formatInsta_eq_none _ (firstOcc_none_of_no_slash _ hns)]
      simpa [stripAt, hca] using hall

lemma formatInsta_fixed (s : List Char) (h : s.all isHandleChar = true) :
    formatInsta s = s := by
  have hns : '/' ∉ s := no_slash_of_allHandle s h
  rw [formatInsta_eq_none s (firstOcc_none_of_no_slash s hns)]
  cases s with
  | nil => rfl
  | cons c rest =>
    have hc : isHandleChar c = true := List.all_eq_true.mp h c (by simp)
    have hca : ¬ c = '@' := by
      intro e
      rw [e] at hc
      exact absurd hc (by decide)
    simp [stripAt, hca]

/-- C8: Instagram normalization is a round trip to the bare handle:
"https://instagram.com/foo.bar/" and "@foo.bar" both normalize to the stored
value "foo.bar"; for every accepted input the URL prefix and a leading @ are
stripped (the result consists of handle characters only, hence has no URL
prefix and no leading @), normalizing an already-bare handle leaves it
unchanged, and the normalization is idempotent on accepted inputs. -/
theorem instagramNormalization_spec :
    validateInstagram instaInputUrl.toList = true ∧
    formatInsta instaInputUrl.toList = instaInputBare.toList ∧
    validateInstagram instaInputAt.toList = true ∧
    formatInsta instaInputAt.toList = instaInputBare.toList ∧
    (∀ s : List Char, validateInstagram s = true →
      (formatInsta s).all isHandleChar = true ∧
      formatInsta (formatInsta s) = formatInsta s) ∧
    (∀ s : List Char, isHandle s = true → formatInsta s = s) := by
  refine ⟨by decide, by decide, by decide, by decide, ?_, ?_⟩
  · intro s hs
    have h1 := allHandle_formatInsta s hs
    exact ⟨h1, formatInsta_fixed _ h1⟩
  · intro s hs
    simp only [isHandle, Bool.and_eq_true] at hs
    exact formatInsta_fixed s hs.2

/-- Witness for C8: the universally quantified parts applied to the concrete
accepted input "@foo.bar" (and the bare handle "foo.bar"). -/
theorem instagramNormalization_spec_witness :
    formatInsta (formatInsta instaInputAt.toList) =
      formatInsta instaInputAt.toList ∧
    formatInsta instaInputBare.toList = instaInputBare.toList := by
  refine ⟨(instagramNormalization_spec.2.2.2.2.1 instaInputAt.toList
    (by decide)).2, ?_⟩
  exact instagramNormalization_spec.2.2.2.2.2 instaInputBare.toList
    (by decide)

/-- C6: creating a rating requires name, event reference and rating_star to
be present (JS-truthy) and the referenced event to exist — any successful
insert implies all of them — and for every input whose rating_star is
present but outside the integer range [1,5], or absent, the handler responds
400 and no rating is inserted. -/
theorem createRating_spec (req : RatingReq) (eventFound : Int → Bool) :
    ((createRating req eventFound).inserted.isSome = true →
      (∃ nm, req.name = some nm ∧ nm ≠ "") ∧
      (∃ eid, req.event_id = some eid ∧ eventFound eid = true) ∧
      (∃ rs, req.rating_star = some rs ∧ 1 ≤ rs ∧ rs ≤ 5)) ∧
    (∀ rs, req.rating_star = some rs → rs < 1 ∨ rs > 5 →
      (createRating req eventFound).status = 400 ∧
      (createRating req eventFound).inserted = none) ∧
    (req.rating_star = none →
      (createRating req eventFound).status = 400 ∧
      (createRating req eventFound).inserted = none) := by
  obtain ⟨name, review, event_id, rating_star⟩ := req
  refine ⟨?_, ?_, ?_⟩
  · intro hins
    cases name with
    | none => simp [createRating] at hins
    | some nm =>
      cases event_id with
      | none => simp [createRating] at hins
      | some eid =>
        cases rating_star with
        | none => simp [createRating] at hins
        | some rs =>
          simp only [createRating] at hins
          split_ifs at hins with h1 h2 h3
          · simp at hins
          · simp at hins
          · simp at hins
          · simp only [Bool.or_eq_true, beq_iff_eq, not_or,
              Bool.not_eq_true] at h1 h2 h3
            refine ⟨⟨nm, rfl, ?_⟩, ⟨eid, rfl, ?_⟩, ⟨rs, rfl, ?_, ?_⟩⟩
            · intro hc
              rw [hc] at h1
              simp at h1
            · simpa using h3
            · have ha := of_decide_eq_false h2.1
              omega
            · have hb := of_decide_eq_false h2.2
              omega
  · intro rs hrs hout
    subst hrs
    cases name with
    | none => simp [createRating]
    | some nm =>
      cases event_id with
      | none => simp [createRating]
      | some eid =>
        simp only [createRating]
        split_ifs with h1 h2 h3
        · simp
        · simp
        · simp
        · exfalso
          simp only [Bool.or_eq_true, decide_eq_true_eq, not_or] at h2
          omega
  · intro hrs
    subst hrs
    cases name <;> cases event_id <;> simp [createRating]

/-- Witness for C6: rating_star 6 with everything else valid is rejected
with a 400 and nothing inserted. -/
theorem createRating_spec_witness :
    (createRating ⟨some "Bob", none, some 1, some 6⟩
        (fun _ => true)).status = 400 ∧
    (createRating ⟨some "Bob", none, some 1, some 6⟩
        (fun _ => true)).inserted = none :=
  (createRating_spec ⟨some "Bob", none, some 1, some 6⟩
    (fun _ => true)).2.1 6 rfl (Or.inr (by decide))

/-- C7: for every booth application whose stored status is not PENDING, an
applicant-side `updateBooth` request responds 400 reporting the current
status and issues no update; when the status is PENDING (and the supplied
fields are acceptable: at least one field present, phone valid if supplied)
the update of the supplied fields is issued. -/
theorem updateBooth_spec (booth : Booth) (req : BoothUpdateReq) :
    (booth.is_acc ≠ "PENDING" →
      (updateBooth booth req).status = 400 ∧
      (updateBooth booth req).current_status = some booth.is_acc ∧
      (updateBooth booth req).message =
        "Cannot update booth application with status: " ++ booth.is_acc ∧
      (updateBooth booth req).updateOp = none) ∧
    (booth.is_acc = "PENDING" →
      (∀ p, req.phone = some p → validatePhone p = true) →
      (req.name ≠ none ∨ req.desc ≠ none ∨ req.phone ≠ none) →
      (updateBooth booth req).status = 200 ∧
      (updateBooth booth req).updateOp =
        some ⟨req.name.map jsTrim, req.desc.map jsTrim,
          req.phone.map jsParseNatDigits⟩) := by
  constructor
  · intro hne
    have hb : (booth.is_acc == "PENDING") = false := by
      simpa using hne
    simp [updateBooth, hb]
  · intro heq hval hsome
    have hb : (booth.is_acc == "PENDING") = true := by
      simpa using heq
    obtain ⟨name, phone, desc⟩ := req
    cases phone with
    | some p =>
      have hv : validatePhone p = true := hval p rfl
      cases name <;> cases desc <;>
        simp [updateBooth, finishUpdate, emptyUpdate, hb, hv]
    | none =>
      rcases hsome with h | h | h
      · cases name with
        | none => exact absurd rfl h
        | some nm =>
          cases desc <;>
            simp [updateBooth, finishUpdate, emptyUpdate, hb]
      · cases desc with
        | none => exact absurd rfl h
        | some d =>
          cases name <;>
            simp [updateBooth, finishUpdate, emptyUpdate, hb]
      · exact absurd rfl h

/-- Witness for C7: an APPROVED application cannot be edited (400, current
status reported, no update); a PENDING application with a new name is
updated. -/
theorem updateBooth_spec_witness :
    ((updateBooth ⟨"APPROVED"⟩ ⟨some "Ann", none, none⟩).status = 400 ∧
      (updateBooth ⟨"APPROVED"⟩ ⟨some "Ann", none, none⟩).current_status =
        some "APPROVED" ∧
      (updateBooth ⟨"APPROVED"⟩ ⟨some "Ann", none, none⟩).updateOp = none) ∧
    ((updateBooth ⟨"PENDING"⟩ ⟨some "Ann", none, none⟩).status = 200 ∧
      (updateBooth ⟨"PENDING"⟩ ⟨some "Ann", none, none⟩).updateOp =
        some ⟨some "Ann", none, none⟩) := by
  have h1 := (updateBooth_spec ⟨"APPROVED"⟩ ⟨some "Ann", none, none⟩).1
    (by decide)
  have h2 := (updateBooth_spec ⟨"PENDING"⟩ ⟨some "Ann", none, none⟩).2
    rfl (by intro p hp; cases hp) (Or.inl (by simp))
  refine ⟨⟨h1.1, h1.2.1, h1.2.2.2⟩, h2.1, ?_⟩
  rw [h2.2]
  decide

/-- C9: for every `deleteBooth` request whose booth id exists in the store,
the existence check evaluates the undefined identifier `existingB`, so the
handler throws before issuing the delete, responds 500, and the booth is
never deleted; the success branch is unreachable for existing booths. -/
theorem deleteBooth_spec (b : Booth) (idValid : Bool) :
    deleteBooth true (some b) = ⟨500, false⟩ ∧
    (deleteBooth idValid (some b)).deleted = false ∧
    (deleteBooth idValid (some b)).status ≠ 200 := by
  refine ⟨rfl, ?_, ?_⟩ <;>
    cases idValid <;> simp [deleteBooth, deleteBoothGuard]

/-- C10: for every `updateEvent` request in which `remove_banner` or
`remove_permit` equals the string "true", the handler hits the temporal dead
zone of `updateData`/`existingEvent` (declared only later), raises a
ReferenceError, responds 500, and the event record is left unchanged —
whatever the rest of the handler would have produced. -/
theorem updateEvent_spec (req : UpdateEventReq) (rest : UpdateEventResult)
    (h : req.remove_banner = some "true" ∨
      req.remove_permit = some "true") :
    updateEvent req rest = ⟨500, false⟩ ∧
    (updateEvent req rest).eventChanged = false := by
  rcases h with h | h <;> simp [updateEvent, h]

/-- Witness for C10: a request with `remove_banner = "true"` gets a 500 and
no change, even though the rest of the handler would have succeeded. -/
theorem updateEvent_spec_witness :
    updateEvent ⟨some "true", none⟩ ⟨200, true⟩ = ⟨500, false⟩ :=
  (updateEvent_spec ⟨some "true", none⟩ ⟨200, true⟩ (Or.inl rfl)).1

/-- C1: `validateDates(start, end)` returns invalid when either argument
parses to an invalid date; invalid with message "Start date cannot be in the
past" when start is before the start (midnight) of the current day; invalid
with message "End date must be after start date" when end < start; and valid
otherwise — in particular, end equal to start is valid. -/
theorem validateDates_spec (s e todayStart : Int) :
    ((validateDates none (some e) todayStart).valid = false ∧
      (validateDates none (some e) todayStart).message =
        some "Invalid date format") ∧
    ((validateDates (some s) none todayStart).valid = false ∧
      (validateDates none none todayStart).valid = false) ∧
    (s < todayStart →
      validateDates (some s) (some e) todayStart =
        ⟨false, some "Start date cannot be in the past"⟩) ∧
    (todayStart ≤ s → e < s →
      validateDates (some s) (some e) todayStart =
        ⟨false, some "End date must be after start date"⟩) ∧
    (todayStart ≤ s → s ≤ e →
      (validateDates (some s) (some e) todayStart).valid = true) ∧
    (todayStart ≤ s →
      (validateDates (some s) (some s) todayStart).valid = true) := by
  refine ⟨⟨rfl, rfl⟩, ⟨rfl, rfl⟩, ?_, ?_, ?_, ?_⟩
  · intro h
    simp [validateDates, h]
  · intro h1 h2
    simp [validateDates, not_lt.mpr h1, h2]
  · intro h1 h2
    simp [validateDates, not_lt.mpr h1, not_lt.mpr h2]
  · intro h1
    simp [validateDates, not_lt.mpr h1]

/-- Witness for C1: concrete instantiation (todayStart = 10): start 3 is in
the past, start 12 / end 12 is valid. -/
theorem validateDates_spec_witness :
    validateDates (some 3) (some 20) 10 =
      ⟨false, some "Start date cannot be in the past"⟩ ∧
    (validateDates (some 12) (some 12) 10).valid = true := by
  refine ⟨((validateDates_spec 3 20 10).2.2.1 (by decide)), ?_⟩
  exact (validateDates_spec 12 20 10).2.2.2.2.2 (by decide)

/-- C2: for every event with parsed `start_date`/`end_date` and a fixed
current time `now`, the derived `status` equals "completed" if now >
end_date, else "ongoing" if now ≥ start_date, else "upcoming" (this is the
refinement `eventStatus = specEventStatus`), and exactly one of the three
values is produced. -/
theorem eventStatus_spec (now s e : Int) :
    eventStatus now s e = specEventStatus now s e ∧
    (now > e → eventStatus now s e = "completed") ∧
    (¬ now > e → now ≥ s → eventStatus now s e = "ongoing") ∧
    (¬ now > e → ¬ now ≥ s → eventStatus now s e = "upcoming") ∧
    (eventStatus now s e = "completed" ∨ eventStatus now s e = "ongoing" ∨
      eventStatus now s e = "upcoming") := by
  unfold eventStatus specEventStatus
  constructor
  · rcases lt_or_le e now with h | h
    · simp [h, gt_iff_lt]
    · rcases le_or_lt s now with h2 | h2 <;>
        simp [not_lt.mpr h, h2, ge_iff_le, not_lt_of_le h2]
  constructor
  · intro h
    simp [gt_iff_lt.mp h]
  constructor
  · intro h1 h2
    simp [not_lt.mp (fun hc => h1 hc), h2, not_lt.mpr (not_lt.mp h1)]
  constructor
  · intro h1 h2
    have he : ¬ e < now := fun hc => h1 hc
    have hs : ¬ s ≤ now := fun hc => h2 hc
    simp [he, hs]
  · rcases lt_or_le e now with h | h
    · left; simp [h]
    · rcases le_or_lt s now with h2 | h2
      · right; left; simp [not_lt.mpr h, h2]
      · right; right; simp [not_lt.mpr h, not_le.mpr h2]

/-- Witness for C2: now = 100, start 40, end 60 → "completed"; start 90,
end 110 → "ongoing"; start 150, end 160 → "upcoming". -/
theorem eventStatus_spec_witness :
    eventStatus 100 40 60 = "completed" ∧
    eventStatus 100 90 110 = "ongoing" ∧
    eventStatus 100 150 160 = "upcoming" := by
  refine ⟨(eventStatus_spec 100 40 60).2.1 (by decide), ?_, ?_⟩
  · exact (eventStatus_spec 100 90 110).2.2.1 (by decide) (by decide)
  · exact (eventStatus_spec 100 150 160).2.2.2.1 (by decide) (by decide)

end Bazaarku
